import Mathlib

/-!
# go-task-api: the in-memory task store and its HTTP handlers

A shallow embedding of `src/main.go`.

* The package-level variables `tasks` and `nextID` become the fields of `Store`, which every
  handler receives and returns.
* A Go slice is `TaskSlice`: the nil slice (the zero value of `var tasks []Task`) is kept apart
  from an allocated slice, because `encoding/json` writes the former as `null` and the latter
  as an array.
* A `Request` carries the method, the URL path and the outcome of
  `json.NewDecoder(r.Body).Decode(&t)` on a zero `Task` (`none` when `Decode` returns an error).
* A `Response` carries the status code, the `Content-Type` header and the payload written.
* Go's `int` is `Int`, and `strconv.Atoi` keeps its 64-bit range check. The counter is modelled
  twice. `createTask`, `serve` and `run` count in the integers; `createTask64`, `serve64` and
  `run64` compute `nextID++` on a 64-bit `int`, wrap-around included. The two agree on every
  store whose counter is below `2^63 - 1` (`serve64_eq_serve`), and the counter starts at 1 and
  rises by at most one per request (`nextID_le_length`), so they go through the same stores on
  every sequence of fewer than `2^63 - 1` requests (`run64_init_eq_run`).
* Requests are served one after the other (`run`, `responses`); the source has no locking, and
  overlapping requests are outside the model.
* `serve` is the dispatch among the handlers that `main` registers on the default `ServeMux`:
  the pattern `/tasks` matches that path exactly, the pattern `/tasks/` matches every path below
  it, anything else is the mux's own 404. `ServeHTTP` puts the mux's path cleaning in front of
  it: a request whose path is not in the form `cleanPath` returns is redirected and reaches no
  handler. `Path` is the path as sent, without percent-escapes, so it is both what the mux cleans
  and the `r.URL.Path` the handlers read. Every request to `/tasks`, and every request to
  `/tasks/` followed by a suffix that `Atoi` parses, is dispatched as it stands
  (`ServeHTTP_tasks`, `ServeHTTP_item_of_Atoi`); a redirect leaves the store alone
  (`ServeHTTP_cases`).
-/

namespace TaskApi

/-- The `Task` struct. -/
structure Task where
  ID : Int
  Title : String
  Description : String
  Status : String
  deriving DecidableEq, Repr

/-- A Go `[]Task`: either the nil slice or an allocated slice with its elements. -/
inductive TaskSlice where
  | nil : TaskSlice
  | slice (elems : List Task) : TaskSlice
  deriving DecidableEq, Repr

namespace TaskSlice

/-- The elements of a slice in index order; the nil slice has none. -/
def toList : TaskSlice → List Task
  | nil => []
  | slice elems => elems

/-- The result of `append(s, t)`: always an allocated slice. -/
def push (s : TaskSlice) (t : Task) : TaskSlice :=
  slice (s.toList ++ [t])

/-- The effect of assigning to the fields of `s[i]`: the element at `i` becomes `t`. -/
def setAt : TaskSlice → Nat → Task → TaskSlice
  | nil, _, _ => nil
  | slice elems, i, t => slice (elems.set i t)

/-- The result of `append(s[:i], s[i+1:]...)`. -/
def removeAt : TaskSlice → Nat → TaskSlice
  | nil, _ => nil
  | slice elems, i => slice (elems.take i ++ elems.drop (i + 1))

end TaskSlice

/-- The package-level state: `var tasks []Task` and `var nextID = 1`. -/
structure Store where
  tasks : TaskSlice
  nextID : Int
  deriving DecidableEq, Repr

/-- The state at process start. -/
def init : Store := { tasks := TaskSlice.nil, nextID := 1 }

/-- What a handler reads of an `*http.Request`. `Body` is the `Task` that
`json.NewDecoder(r.Body).Decode` fills in starting from the zero value, `none` when it fails. -/
structure Request where
  Method : String
  Path : String
  Body : Option Task
  deriving DecidableEq, Repr

/-- What is written as the response body; `redirect` stands for what `http.Redirect` writes: the
`Location` header and, for a GET, a short HTML note. -/
inductive Payload where
  | empty : Payload
  | text (msg : String) : Payload
  | jsonNull : Payload
  | jsonTask (t : Task) : Payload
  | jsonArray (ts : List Task) : Payload
  | redirect (location : String) : Payload
  deriving DecidableEq, Repr

/-- What a handler writes to the `http.ResponseWriter`. -/
structure Response where
  status : Nat
  contentType : Option String
  body : Payload
  deriving DecidableEq, Repr

/-- The call `http.Error(w, msg, code)`: a plain-text line `msg` with status `code`. -/
def httpError (msg : String) (code : Nat) : Response :=
  { status := code, contentType := some "text/plain; charset=utf-8", body := Payload.text msg }

/-- The call `json.NewEncoder(w).Encode(tasks)` for a slice: `null` for the nil slice, an array
otherwise. -/
def encodeTasks : TaskSlice → Payload
  | TaskSlice.nil => Payload.jsonNull
  | TaskSlice.slice elems => Payload.jsonArray elems

/-- The function `strings.TrimPrefix`. -/
def TrimPrefix (s pre : String) : String :=
  if pre.data.isPrefixOf s.data then String.mk (s.data.drop pre.data.length) else s

/-- The value of one decimal digit, `none` for any other character. -/
def digitVal (c : Char) : Option Nat :=
  if 48 ≤ c.toNat ∧ c.toNat ≤ 57 then some (c.toNat - 48) else none

/-- The digit loop of `strconv.Atoi`: `n = n*10 + digit`, failing on the first non-digit. -/
def parseDigits : List Char → Nat → Option Nat
  | [], n => some n
  | c :: cs, n =>
    match digitVal c with
    | none => none
    | some d => parseDigits cs (n * 10 + d)

/-- The function `strconv.Atoi` on a 64-bit platform: a leading `-` or `+` is dropped, what is
left must be one or more decimal digits, the value is negated when the first character was `-`,
and it must lie between `-2^63` and `2^63 - 1`; `none` stands for a non-nil error. -/
def Atoi (s : String) : Option Int :=
  match s.data with
  | [] => none
  | s0 :: rest =>
    let digits := if s0 = '-' ∨ s0 = '+' then rest else s0 :: rest
    if digits.isEmpty then none
    else
      match parseDigits digits 0 with
      | none => none
      | some n =>
        if s0 = '-' then
          if n ≤ 2 ^ 63 then some (-(n : Int)) else none
        else
          if n < 2 ^ 63 then some (n : Int) else none

/-- The decimal numeral of a natural number, most significant digit first (empty for 0). -/
def decimal (n : Nat) : List Char :=
  (Nat.digits 10 n).reverse.map (fun d => Char.ofNat (48 + d))

/-- The scan `for i, task := range tasks { if task.ID == id { ... return } }`: the index and the
element at which the loop body returns, `none` when the loop runs to its end. -/
def scan (id : Int) : List Task → Option (Nat × Task)
  | [] => none
  | task :: rest =>
    if task.ID = id then some (0, task) else (scan id rest).map (fun p => (p.1 + 1, p.2))

/-- The three guarded assignments of `updateTask` applied to the stored task. -/
def applyPatch (stored updatedTask : Task) : Task :=
  let t1 := if updatedTask.Title ≠ "" then { stored with Title := updatedTask.Title } else stored
  let t2 :=
    if updatedTask.Description ≠ "" then { t1 with Description := updatedTask.Description } else t1
  if updatedTask.Status ≠ "" then { t2 with Status := updatedTask.Status } else t2

/-- The handler `createTask`. -/
def createTask (s : Store) (r : Request) : Store × Response :=
  if r.Method ≠ "POST" then (s, httpError "Method Not Allowed" 405)
  else
    match r.Body with
    | none => (s, httpError "Bad Request" 400)
    | some decoded =>
      let newTask : Task := { decoded with ID := s.nextID }
      let nextID := s.nextID + 1
      let newTask := if newTask.Status = "" then { newTask with Status := "pending" } else newTask
      ({ tasks := s.tasks.push newTask, nextID := nextID },
        { status := 201, contentType := some "application/json", body := Payload.jsonTask newTask })

/-- The handler `getTasks`. No status is written, so the response goes out as 200. -/
def getTasks (s : Store) (r : Request) : Store × Response :=
  if r.Method ≠ "GET" then (s, httpError "Method Not Allowed" 405)
  else (s, { status := 200, contentType := some "application/json", body := encodeTasks s.tasks })

/-- The handler `getTaskByID`. -/
def getTaskByID (s : Store) (r : Request) : Store × Response :=
  if r.Method ≠ "GET" then (s, httpError "Method Not Allowed" 405)
  else
    match Atoi (TrimPrefix r.Path "/tasks/") with
    | none => (s, httpError "Invalid Task ID" 400)
    | some id =>
      match scan id s.tasks.toList with
      | some (_, task) =>
        (s, { status := 200, contentType := some "application/json",
              body := Payload.jsonTask task })
      | none => (s, httpError "Task Not Found" 404)

/-- The handler `updateTask`. -/
def updateTask (s : Store) (r : Request) : Store × Response :=
  if r.Method ≠ "PUT" then (s, httpError "Method Not Allowed" 405)
  else
    match Atoi (TrimPrefix r.Path "/tasks/") with
    | none => (s, httpError "Invalid Task ID" 400)
    | some id =>
      match r.Body with
      | none => (s, httpError "Bad Request" 400)
      | some updatedTask =>
        match scan id s.tasks.toList with
        | some (i, task) =>
          let merged := applyPatch task updatedTask
          ({ s with tasks := s.tasks.setAt i merged },
            { status := 200, contentType := some "application/json",
              body := Payload.jsonTask merged })
        | none => (s, httpError "Task Not Found" 404)

/-- The handler `deleteTask`. -/
def deleteTask (s : Store) (r : Request) : Store × Response :=
  if r.Method ≠ "DELETE" then (s, httpError "Method Not Allowed" 405)
  else
    match Atoi (TrimPrefix r.Path "/tasks/") with
    | none => (s, httpError "Invalid Task ID" 400)
    | some id =>
      match scan id s.tasks.toList with
      | some (i, _) =>
        ({ s with tasks := s.tasks.removeAt i },
          { status := 204, contentType := none, body := Payload.empty })
      | none => (s, httpError "Task Not Found" 404)

/-- The handler registered for the pattern `/tasks`. -/
def tasksRoute (s : Store) (r : Request) : Store × Response :=
  if r.Path ≠ "/tasks" then (s, httpError "404 page not found" 404)
  else if r.Method = "GET" then getTasks s r
  else if r.Method = "POST" then createTask s r
  else (s, httpError "Method Not Allowed" 405)

/-- The handler registered for the pattern `/tasks/`. -/
def taskRoute (s : Store) (r : Request) : Store × Response :=
  if r.Method = "GET" then getTaskByID s r
  else if r.Method = "PUT" then updateTask s r
  else if r.Method = "DELETE" then deleteTask s r
  else (s, httpError "Method Not Allowed" 405)

/-- The server of `main`: the default mux with the two registered patterns. -/
def serve (s : Store) (r : Request) : Store × Response :=
  if r.Path = "/tasks" then tasksRoute s r
  else if "/tasks/".data.isPrefixOf r.Path.data then taskRoute s r
  else (s, httpError "404 page not found" 404)

/-- The store after a sequence of requests served one after the other. -/
def run (s : Store) : List Request → Store
  | [] => s
  | r :: rs => run (serve s r).1 rs

/-- The responses to a sequence of requests served one after the other. -/
def responses (s : Store) : List Request → List Response
  | [] => []
  | r :: rs => (serve s r).2 :: responses (serve s r).1 rs

/-- The id carried by the record in a response body, if the body is a single task. -/
def bodyID (resp : Response) : Option Int :=
  match resp.body with
  | Payload.jsonTask t => some t.ID
  | _ => none

/-- The ids of the stored tasks in collection order. -/
def ids (s : Store) : List Int := s.tasks.toList.map (·.ID)

/-- The record that `createTask` stores for the decoded body `c` when the counter is `n`. -/
def createdTask (n : Int) (c : Task) : Task :=
  { ID := n, Title := c.Title, Description := c.Description,
    Status := if c.Status = "" then "pending" else c.Status }

/-- The stored ids rise strictly along the collection and lie between 1 and the counter, which
is itself at least 1. -/
def Inv (s : Store) : Prop :=
  (ids s).Pairwise (· < ·) ∧ 1 ≤ s.nextID ∧ ∀ i ∈ ids s, 1 ≤ i ∧ i < s.nextID

/-- Go's `++` on a 64-bit `int`: the successor, wrapped into the range from `-2^63` to
`2^63 - 1`. -/
def incrInt64 (n : Int) : Int := (n + 1 + 2 ^ 63) % 2 ^ 64 - 2 ^ 63

/-- The handler `createTask` with `nextID++` computed on a 64-bit `int`. -/
def createTask64 (s : Store) (r : Request) : Store × Response :=
  if r.Method ≠ "POST" then (s, httpError "Method Not Allowed" 405)
  else
    match r.Body with
    | none => (s, httpError "Bad Request" 400)
    | some decoded =>
      let newTask : Task := { decoded with ID := s.nextID }
      let nextID := incrInt64 s.nextID
      let newTask := if newTask.Status = "" then { newTask with Status := "pending" } else newTask
      ({ tasks := s.tasks.push newTask, nextID := nextID },
        { status := 201, contentType := some "application/json", body := Payload.jsonTask newTask })

/-- The handler registered for the pattern `/tasks`, with the 64-bit counter. -/
def tasksRoute64 (s : Store) (r : Request) : Store × Response :=
  if r.Path ≠ "/tasks" then (s, httpError "404 page not found" 404)
  else if r.Method = "GET" then getTasks s r
  else if r.Method = "POST" then createTask64 s r
  else (s, httpError "Method Not Allowed" 405)

/-- The dispatch of `serve`, with the 64-bit counter. -/
def serve64 (s : Store) (r : Request) : Store × Response :=
  if r.Path = "/tasks" then tasksRoute64 s r
  else if "/tasks/".data.isPrefixOf r.Path.data then taskRoute s r
  else (s, httpError "404 page not found" 404)

/-- The store after a sequence of requests, with the 64-bit counter. -/
def run64 (s : Store) : List Request → Store
  | [] => s
  | r :: rs => run64 (serve64 s r).1 rs

/-- The elements of a path: the pieces between its slashes. -/
def pathElements : List Char → List (List Char)
  | [] => [[]]
  | c :: cs =>
    if c = '/' then [] :: pathElements cs
    else
      match pathElements cs with
      | [] => [[c]]
      | e :: es => (c :: e) :: es

/-- One element in the loop of `path.Clean` on a rooted path: an empty element and `.` are
dropped, `..` removes the element kept last (none at the root), any other element is kept. -/
def cleanStep (kept : List (List Char)) (e : List Char) : List (List Char) :=
  if e = [] ∨ e = ['.'] then kept
  else if e = ['.', '.'] then kept.dropLast
  else kept ++ [e]

/-- The function `path.Clean` on a path that starts with a slash: the kept elements, each after
one slash, or the root alone when none is kept. -/
def cleanRooted (p : List Char) : List Char :=
  '/' :: List.intercalate ['/'] ((pathElements p).foldl cleanStep [])

/-- The function `cleanPath` of `net/http`: `path.Clean` of the path made rooted, with the
trailing slash that `Clean` removes put back. -/
def cleanPath (p : String) : String :=
  if p.data = [] then "/"
  else
    let rooted := if p.data.head? ≠ some '/' then '/' :: p.data else p.data
    let np := cleanRooted rooted
    if rooted.getLast? = some '/' ∧ np ≠ ['/'] then String.mk (np ++ ['/']) else String.mk np

/-- The response of the mux's redirect to the cleaned path. -/
def redirectResponse (method location : String) : Response :=
  { status := 307,
    contentType :=
      if method = "GET" ∨ method = "HEAD" then some "text/html; charset=utf-8" else none,
    body := Payload.redirect location }

/-- The method `ServeHTTP` of the default mux as `main` sets it up: a request other than CONNECT
whose path is not what `cleanPath` returns for it is answered with a redirect to the cleaned
path and reaches no handler; any other request is dispatched by `serve`. -/
def ServeHTTP (s : Store) (r : Request) : Store × Response :=
  if r.Method ≠ "CONNECT" ∧ cleanPath r.Path ≠ r.Path then
    (s, redirectResponse r.Method (cleanPath r.Path))
  else serve s r

/-! ## The scan loop -/

theorem scan_none_iff (id : Int) (l : List Task) :
    scan id l = none ↔ ∀ t ∈ l, t.ID ≠ id := by
  induction l with
  | nil => simp [scan]
  | cons a l ih =>
    by_cases h : a.ID = id
    · simp [scan, h]
    · simp [scan, h, ih]

theorem scan_some_split (id : Int) (l : List Task) (i : Nat) (t : Task)
    (h : scan id l = some (i, t)) :
    ∃ pre post, l = pre ++ t :: post ∧ pre.length = i ∧ t.ID = id ∧ ∀ u ∈ pre, u.ID ≠ id := by
  induction l generalizing i with
  | nil => simp [scan] at h
  | cons a l ih =>
    by_cases ha : a.ID = id
    · simp only [scan, ha, if_true, Option.some.injEq, Prod.mk.injEq] at h
      obtain ⟨hi, hat⟩ := h
      subst hi; subst hat
      exact ⟨[], l, rfl, rfl, ha, by simp⟩
    · simp only [scan, ha, if_false, Option.map_eq_some'] at h
      obtain ⟨⟨j, u⟩, hj, hju⟩ := h
      simp only [Prod.mk.injEq] at hju
      obtain ⟨hi, hut⟩ := hju
      subst hi; subst hut
      obtain ⟨pre, post, hl, hlen, hid, hpre⟩ := ih j hj
      refine ⟨a :: pre, post, by simp [hl], by simp [hlen], hid, ?_⟩
      intro v hv
      rcases List.mem_cons.mp hv with rfl | hv
      · exact ha
      · exact hpre v hv

theorem scan_split (id : Int) (pre post : List Task) (t : Task)
    (hpre : ∀ u ∈ pre, u.ID ≠ id) (ht : t.ID = id) :
    scan id (pre ++ t :: post) = some (pre.length, t) := by
  induction pre with
  | nil => simp [scan, ht]
  | cons a pre ih =>
    have ha : a.ID ≠ id := hpre a (List.mem_cons_self _ _)
    have ih2 := ih (fun u hu => hpre u (List.mem_cons_of_mem _ hu))
    simp [scan, ha, ih2]

theorem scan_of_mem (id : Int) (l : List Task) (h : ∃ t ∈ l, t.ID = id) :
    ∃ i t, scan id l = some (i, t) := by
  cases hs : scan id l with
  | none =>
    obtain ⟨t, ht, hid⟩ := h
    exact absurd hid ((scan_none_iff id l).mp hs t ht)
  | some p => exact ⟨p.1, p.2, rfl⟩

/-! ## Paths below `/tasks/` -/

theorem item_path_ne (sfx : String) : "/tasks/" ++ sfx ≠ "/tasks" := by
  intro h
  have h2 := congrArg String.data h
  rw [String.data_append] at h2
  have h3 := congrArg List.length h2
  rw [List.length_append] at h3
  have h7 : "/tasks/".data.length = 7 := by decide
  have h6 : "/tasks".data.length = 6 := by decide
  omega

theorem item_path_isPrefixOf (sfx : String) :
    "/tasks/".data.isPrefixOf ("/tasks/" ++ sfx).data = true := by
  rw [String.data_append, List.isPrefixOf_iff_prefix]
  exact List.prefix_append _ _

theorem trimPrefix_item_path (sfx : String) : TrimPrefix ("/tasks/" ++ sfx) "/tasks/" = sfx := by
  unfold TrimPrefix
  rw [if_pos (item_path_isPrefixOf sfx), String.data_append, List.drop_left]

theorem serve_item (s : Store) (m sfx : String) (b : Option Task) :
    serve s ⟨m, "/tasks/" ++ sfx, b⟩ = taskRoute s ⟨m, "/tasks/" ++ sfx, b⟩ := by
  unfold serve
  simp only []
  rw [if_neg (item_path_ne sfx), if_pos (item_path_isPrefixOf sfx)]

/-! ## Every 64-bit integer has a path suffix that parses to it -/

theorem digitVal_ofNat (d : Nat) (hd : d < 10) :
    digitVal (Char.ofNat (48 + d)) = some d ∧ Char.ofNat (48 + d) ≠ '-' ∧
      Char.ofNat (48 + d) ≠ '+' := by
  interval_cases d <;> decide

theorem parseDigits_map (ds : List Nat) (hds : ∀ d ∈ ds, d < 10) (acc : Nat) :
    parseDigits (ds.map (fun d => Char.ofNat (48 + d))) acc =
      some (ds.foldl (fun a d => a * 10 + d) acc) := by
  induction ds generalizing acc with
  | nil => rfl
  | cons d ds ih =>
    have hd := (digitVal_ofNat d (hds d (List.mem_cons_self _ _))).1
    simp only [List.map_cons, parseDigits, hd, List.foldl_cons]
    exact ih (fun e he => hds e (List.mem_cons_of_mem _ he)) _

theorem foldr_ofDigits (L : List Nat) :
    L.foldr (fun d a => a * 10 + d) 0 = Nat.ofDigits 10 L := by
  induction L with
  | nil => rfl
  | cons h t ih =>
    rw [List.foldr_cons, ih, Nat.ofDigits_cons]
    ring

theorem parseDigits_decimal (n : Nat) : parseDigits (decimal n) 0 = some n := by
  unfold decimal
  rw [parseDigits_map _ (fun d hd => Nat.digits_lt_base (by decide) (List.mem_reverse.mp hd)),
    List.foldl_reverse, foldr_ofDigits, Nat.ofDigits_digits]

theorem decimal_cons (n : Nat) (hn : n ≠ 0) :
    ∃ c cs, decimal n = c :: cs ∧ c ≠ '-' ∧ c ≠ '+' := by
  unfold decimal
  have hne : (Nat.digits 10 n).reverse ≠ [] := by
    simpa using Nat.digits_ne_nil_iff_ne_zero.mpr hn
  cases hr : (Nat.digits 10 n).reverse with
  | nil => exact absurd hr hne
  | cons d ds =>
    have hd : d < 10 :=
      Nat.digits_lt_base (by decide) (List.mem_reverse.mp (by rw [hr]; exact List.mem_cons_self _ _))
    exact ⟨_, _, rfl, (digitVal_ofNat d hd).2⟩

theorem Atoi_decimal (n : Nat) (hn : n ≠ 0) (hlt : n < 2 ^ 63) :
    Atoi (String.mk (decimal n)) = some (n : Int) := by
  obtain ⟨c, cs, hc, h1, h2⟩ := decimal_cons n hn
  have hp := parseDigits_decimal n
  rw [hc] at hp
  have hlt2 : n < 9223372036854775808 := by norm_num at hlt; exact hlt
  simp [Atoi, hc, h1, h2, hp, hlt2]

theorem Atoi_neg_decimal (n : Nat) (hn : n ≠ 0) (hle : n ≤ 2 ^ 63) :
    Atoi (String.mk ('-' :: decimal n)) = some (-(n : Int)) := by
  obtain ⟨c, cs, hc, _, _⟩ := decimal_cons n hn
  have hp := parseDigits_decimal n
  simp only [Atoi, true_or, if_true]
  rw [hp]
  have hle2 : n ≤ 9223372036854775808 := by norm_num at hle; exact hle
  simp [hc, hle2]

/-- Every value of a 64-bit `int` is what `Atoi` returns for some string. -/
theorem Atoi_surjective (id : Int) (hlo : -(2 : Int) ^ 63 ≤ id) (hhi : id < 2 ^ 63) :
    ∃ sfx, Atoi sfx = some id := by
  rcases lt_trichotomy id 0 with hneg | hzero | hpos
  · refine ⟨String.mk ('-' :: decimal (-id).toNat), ?_⟩
    have h1 : ((-id).toNat : Int) = -id := Int.toNat_of_nonneg (by omega)
    rw [Atoi_neg_decimal _ (by omega) (by omega), h1, neg_neg]
  · exact ⟨"0", by rw [hzero]; decide⟩
  · refine ⟨String.mk (decimal id.toNat), ?_⟩
    have h1 : (id.toNat : Int) = id := Int.toNat_of_nonneg (by omega)
    rw [Atoi_decimal _ (by omega) (by omega), h1]

/-- What `Atoi` returns is a value of a 64-bit `int`. -/
theorem Atoi_range (sfx : String) (id : Int) (h : Atoi sfx = some id) :
    -(2 : Int) ^ 63 ≤ id ∧ id < 2 ^ 63 := by
  unfold Atoi at h
  split at h
  · simp at h
  · simp only [] at h
    split_ifs at h
    all_goals
      first
      | (simp at h; done)
      | (split at h
         · simp at h
         · split_ifs at h
           simp only [Option.some.injEq] at h
           subst h
           constructor <;> omega)

/-! ## One request -/

theorem createTask_post (s : Store) (p : String) (c : Task) :
    createTask s ⟨"POST", p, some c⟩ =
      ({ tasks := s.tasks.push (createdTask s.nextID c), nextID := s.nextID + 1 },
        { status := 201, contentType := some "application/json",
          body := Payload.jsonTask (createdTask s.nextID c) }) := by
  unfold createTask createdTask
  by_cases h : c.Status = "" <;> simp [h]

/-- Every request either leaves the store alone (with status 200, 400, 404 or 405), or is a
create, an update or a delete that went through. -/
theorem serve_cases (s : Store) (r : Request) :
    ((serve s r).1 = s ∧ ((serve s r).2.status = 200 ∨ (serve s r).2.status = 400 ∨
        (serve s r).2.status = 404 ∨ (serve s r).2.status = 405)) ∨
    (∃ c, serve s r =
        ({ tasks := s.tasks.push (createdTask s.nextID c), nextID := s.nextID + 1 },
          { status := 201, contentType := some "application/json",
            body := Payload.jsonTask (createdTask s.nextID c) })) ∨
    (∃ id p i t, scan id s.tasks.toList = some (i, t) ∧ serve s r =
        ({ tasks := s.tasks.setAt i (applyPatch t p), nextID := s.nextID },
          { status := 200, contentType := some "application/json",
            body := Payload.jsonTask (applyPatch t p) })) ∨
    (∃ id i t, scan id s.tasks.toList = some (i, t) ∧ serve s r =
        ({ tasks := s.tasks.removeAt i, nextID := s.nextID },
          { status := 204, contentType := none, body := Payload.empty })) := by
  obtain ⟨m, path, b⟩ := r
  unfold serve
  simp only []
  split_ifs with h1 h2
  · -- the pattern `/tasks`
    unfold tasksRoute
    simp only [h1, ne_eq, not_true_eq_false, if_false]
    split_ifs with hg hp
    · left; simp [getTasks, hg]
    · subst hp
      cases b with
      | none => left; simp [createTask, httpError]
      | some c => right; left; exact ⟨c, createTask_post s _ c⟩
    · left; simp [httpError]
  · -- the pattern `/tasks/`
    unfold taskRoute
    simp only []
    split_ifs with hg hp hd
    · left
      simp only [getTaskByID, hg, ne_eq, not_true_eq_false, if_false]
      split
      · simp [httpError]
      · split <;> simp [httpError]
    · simp only [updateTask, hp, ne_eq, not_true_eq_false, if_false]
      split
      · left; simp [httpError]
      · rename_i id _
        cases b with
        | none => left; simp [httpError]
        | some c =>
          simp only []
          split
          · rename_i i t hs
            right; right; left
            exact ⟨id, c, i, t, hs, rfl⟩
          · left; simp [httpError]
    · simp only [deleteTask, hd, ne_eq, not_true_eq_false, if_false]
      split
      · left; simp [httpError]
      · rename_i id _
        split
        · rename_i i t hs
          right; right; right
          exact ⟨id, i, t, hs, rfl⟩
        · left; simp [httpError]
    · left; simp [httpError]
  · left; simp [httpError]

/-! ## Slices as lists -/

theorem toList_push (ts : TaskSlice) (t : Task) : (ts.push t).toList = ts.toList ++ [t] := rfl

theorem toList_setAt (ts : TaskSlice) (i : Nat) (t : Task) :
    (ts.setAt i t).toList = ts.toList.set i t := by
  cases ts <;> simp [TaskSlice.setAt, TaskSlice.toList]

theorem toList_removeAt (ts : TaskSlice) (i : Nat) :
    (ts.removeAt i).toList = ts.toList.take i ++ ts.toList.drop (i + 1) := by
  cases ts <;> simp [TaskSlice.removeAt, TaskSlice.toList]

theorem set_at_split (pre post : List Task) (t u : Task) :
    (pre ++ t :: post).set pre.length u = pre ++ u :: post := by
  induction pre with
  | nil => rfl
  | cons a pre ih => simp [ih]

theorem remove_at_split (pre post : List Task) (t : Task) :
    (pre ++ t :: post).take pre.length ++ (pre ++ t :: post).drop (pre.length + 1)
      = pre ++ post := by
  induction pre with
  | nil => simp
  | cons a pre ih => simp

theorem applyPatch_ID (t p : Task) : (applyPatch t p).ID = t.ID := by
  unfold applyPatch
  by_cases h1 : p.Title = "" <;> by_cases h2 : p.Description = "" <;>
    by_cases h3 : p.Status = "" <;> simp [h1, h2, h3]

theorem applyPatch_fields (t p : Task) :
    applyPatch t p =
      { ID := t.ID,
        Title := if p.Title ≠ "" then p.Title else t.Title,
        Description := if p.Description ≠ "" then p.Description else t.Description,
        Status := if p.Status ≠ "" then p.Status else t.Status } := by
  unfold applyPatch
  by_cases h1 : p.Title = "" <;> by_cases h2 : p.Description = "" <;>
    by_cases h3 : p.Status = "" <;> simp [h1, h2, h3]

theorem applyPatch_idem (t p : Task) : applyPatch (applyPatch t p) p = applyPatch t p := by
  rw [applyPatch_fields (applyPatch t p) p, applyPatch_fields t p]
  by_cases h1 : p.Title = "" <;> by_cases h2 : p.Description = "" <;>
    by_cases h3 : p.Status = "" <;> simp [h1, h2, h3]

/-! ## The id invariant -/

theorem inv_init : Inv init := by
  simp [Inv, ids, init, TaskSlice.toList]

theorem inv_serve (s : Store) (r : Request) (h : Inv s) : Inv (serve s r).1 := by
  obtain ⟨hsorted, hpos, hrange⟩ := h
  rcases serve_cases s r with ⟨hs, _⟩ | ⟨c, hc⟩ | ⟨id, p, i, t, hscan, hu⟩ | ⟨id, i, t, hscan, hd⟩
  · rw [hs]; exact ⟨hsorted, hpos, hrange⟩
  · rw [hc]
    simp only [Inv, ids, toList_push, List.map_append, List.map_cons, List.map_nil, createdTask]
    refine ⟨?_, by omega, ?_⟩
    · rw [List.pairwise_append]
      refine ⟨hsorted, List.pairwise_singleton _ _, ?_⟩
      intro a ha b hb
      rw [List.mem_singleton] at hb
      subst hb
      exact (hrange a ha).2
    · intro j hj
      rcases List.mem_append.mp hj with hj | hj
      · have := hrange j hj
        exact ⟨this.1, by omega⟩
      · rw [List.mem_singleton] at hj
        subst hj
        exact ⟨hpos, by omega⟩
  · obtain ⟨pre, post, hl, hlen, _, _⟩ := scan_some_split id _ i t hscan
    have hids : ids (serve s r).1 = ids s := by
      rw [hu]
      simp only [ids, toList_setAt]
      rw [hl, ← hlen, set_at_split]
      simp [applyPatch_ID]
    have hn : (serve s r).1.nextID = s.nextID := by rw [hu]
    unfold Inv
    rw [hids, hn]
    exact ⟨hsorted, hpos, hrange⟩
  · obtain ⟨pre, post, hl, hlen, _, _⟩ := scan_some_split id _ i t hscan
    have hsub : (ids (serve s r).1).Sublist (ids s) := by
      rw [hd]
      simp only [ids, toList_removeAt]
      rw [hl, ← hlen, remove_at_split]
      apply List.Sublist.map
      exact List.Sublist.append_left (List.sublist_cons_self t post) pre
    have hn : (serve s r).1.nextID = s.nextID := by rw [hd]
    unfold Inv
    rw [hn]
    exact ⟨hsorted.sublist hsub, hpos, fun j hj => hrange j (hsub.subset hj)⟩

theorem inv_run (s : Store) (rs : List Request) (h : Inv s) : Inv (run s rs) := by
  induction rs generalizing s with
  | nil => exact h
  | cons r rs ih => exact ih _ (inv_serve s r h)

/-- The counter is one more than the number of creates that went through, so it is at most one
more than the number of requests served. -/
theorem nextID_le_length (rs : List Request) (s : Store) :
    s.nextID ≤ (run s rs).nextID ∧ (run s rs).nextID ≤ s.nextID + rs.length := by
  induction rs generalizing s with
  | nil => simp [run]
  | cons r rs ih =>
    have h := ih (serve s r).1
    have hstep : (serve s r).1.nextID = s.nextID ∨ (serve s r).1.nextID = s.nextID + 1 := by
      rcases serve_cases s r with ⟨hs, _⟩ | ⟨c, hc⟩ | ⟨id, p, i, t, _, hu⟩ | ⟨id, i, t, _, hd⟩
      · rw [hs]; exact Or.inl rfl
      · rw [hc]; exact Or.inr rfl
      · rw [hu]; exact Or.inl rfl
      · rw [hd]; exact Or.inl rfl
    simp only [run, List.length_cons, Nat.cast_add, Nat.cast_one]
    rcases hstep with e | e <;> rw [e] at h <;> omega

/-- C1. In every state reached from the initial state by a finite sequence of requests, the ids
of the stored tasks rise strictly along the collection, so they are pairwise distinct, and every
stored id is at least 1 and below `nextID`. -/
theorem reachable_ids_strictly_increasing (rs : List Request) :
    (ids (run init rs)).Pairwise (· < ·) ∧ (ids (run init rs)).Nodup ∧
      ∀ i ∈ ids (run init rs), 1 ≤ i ∧ i < (run init rs).nextID := by
  obtain ⟨h1, _, h3⟩ := inv_run init rs inv_init
  exact ⟨h1, h1.imp (fun h => ne_of_lt h), h3⟩

/-! ## Ids handed out by create -/

theorem serve_created_or_not (s : Store) (r : Request) :
    ((serve s r).2.status = 201 ∧ bodyID (serve s r).2 = some s.nextID ∧
        (serve s r).1.nextID = s.nextID + 1) ∨
    ((serve s r).2.status ≠ 201 ∧ (serve s r).1.nextID = s.nextID) := by
  rcases serve_cases s r with ⟨hs, hst⟩ | ⟨c, hc⟩ | ⟨id, p, i, t, _, hu⟩ | ⟨id, i, t, _, hd⟩
  · right
    refine ⟨?_, by rw [hs]⟩
    rcases hst with e | e | e | e <;> rw [e] <;> decide
  · left
    rw [hc]
    exact ⟨rfl, rfl, rfl⟩
  · right; rw [hu]; exact ⟨by simp, rfl⟩
  · right; rw [hd]; exact ⟨by simp, rfl⟩

theorem created_ids_from (rs : List Request) (s : Store) :
    ((responses s rs).filter (fun p => p.status = 201)).map bodyID =
      (List.range ((responses s rs).filter (fun p => p.status = 201)).length).map
        (fun k : Nat => some (s.nextID + (k : Int))) := by
  induction rs generalizing s with
  | nil => simp [responses]
  | cons r rs ih =>
    have h := ih (serve s r).1
    rcases serve_created_or_not s r with ⟨h201, hid, hn⟩ | ⟨hne, hn⟩
    · simp only [responses, List.filter_cons, h201, decide_True, if_true, List.map_cons,
        List.length_cons, List.range_succ_eq_map, List.map_map]
      rw [h, hid, hn]
      simp only [List.map_cons, Nat.cast_zero, add_zero, List.map_map, List.cons.injEq, true_and]
      apply List.map_congr_left
      intro k _
      simp only [Function.comp, Nat.cast_succ]
      congr 1
      ring
    · simp only [responses, List.filter_cons, hne, decide_False]
      rw [hn] at h
      simpa using h

/-- C2. Starting from the initial state, along any finite sequence of requests the responses
with status 201 carry, in order, the ids 1, 2, 3, ...: the k-th of them (counting from 0)
returns a record whose id is k + 1. -/
theorem kth_create_returns_k (rs : List Request) :
    ((responses init rs).filter (fun p => p.status = 201)).map bodyID =
      (List.range ((responses init rs).filter (fun p => p.status = 201)).length).map
        (fun k : Nat => some ((k : Int) + 1)) := by
  rw [created_ids_from rs init]
  apply List.map_congr_left
  intro k _
  simp only [init]
  congr 1
  ring

/-! ## Create -/

theorem incrInt64_eq (n : Int) (hlo : -(2 : Int) ^ 63 ≤ n) (hhi : n < 2 ^ 63 - 1) :
    incrInt64 n = n + 1 := by
  unfold incrInt64
  omega

theorem createTask64_post (s : Store) (p : String) (c : Task) :
    createTask64 s ⟨"POST", p, some c⟩ =
      ({ tasks := s.tasks.push (createdTask s.nextID c), nextID := incrInt64 s.nextID },
        { status := 201, contentType := some "application/json",
          body := Payload.jsonTask (createdTask s.nextID c) }) := by
  unfold createTask64 createdTask
  by_cases h : c.Status = "" <;> simp [h]

/-- While the counter is a 64-bit `int` below its largest value, the server with the 64-bit
counter and the server that counts in the integers answer alike. -/
theorem serve64_eq_serve (s : Store) (r : Request)
    (hlo : -(2 : Int) ^ 63 ≤ s.nextID) (hhi : s.nextID < 2 ^ 63 - 1) :
    serve64 s r = serve s r := by
  have hc : createTask64 s r = createTask s r := by
    unfold createTask64 createTask
    rw [incrInt64_eq s.nextID hlo hhi]
  unfold serve64 serve tasksRoute64 tasksRoute
  rw [hc]

/-- From the initial state the two servers go through the same stores on every sequence of
fewer than `2^63 - 1` requests. -/
theorem run64_eq_run (rs : List Request) (s : Store) (hlo : 1 ≤ s.nextID)
    (hhi : s.nextID + rs.length ≤ 2 ^ 63 - 1) :
    run64 s rs = run s rs := by
  induction rs generalizing s with
  | nil => rfl
  | cons r rs ih =>
    simp only [List.length_cons, Nat.cast_add, Nat.cast_one] at hhi
    have hstep : serve64 s r = serve s r := serve64_eq_serve s r (by omega) (by omega)
    have hn := nextID_le_length [r] s
    simp only [run, List.length_singleton, Nat.cast_one] at hn
    simp only [run64, run, hstep]
    exact ih _ (by omega) (by omega)

theorem run64_init_eq_run (rs : List Request) (h : (rs.length : Int) < 2 ^ 63 - 1) :
    run64 init rs = run init rs :=
  run64_eq_run rs init (by decide) (by simp only [init]; omega)

/-- C3, as stated, fails at one store: when `nextID` is the largest 64-bit `int`, a create
answers 201 with that id, but `nextID++` wraps to `-2^63` instead of growing by one. -/
theorem create_counter_wraps_counterexample :
    (serve64 ⟨TaskSlice.nil, 2 ^ 63 - 1⟩ ⟨"POST", "/tasks", some ⟨0, "a", "", ""⟩⟩).2 =
      { status := 201, contentType := some "application/json",
        body := Payload.jsonTask ⟨2 ^ 63 - 1, "a", "", "pending"⟩ } ∧
    (serve64 ⟨TaskSlice.nil, 2 ^ 63 - 1⟩ ⟨"POST", "/tasks", some ⟨0, "a", "", ""⟩⟩).1.nextID =
      -2 ^ 63 ∧
    (serve64 ⟨TaskSlice.nil, 2 ^ 63 - 1⟩ ⟨"POST", "/tasks", some ⟨0, "a", "", ""⟩⟩).1.nextID ≠
      (2 ^ 63 - 1) + 1 := by
  decide

/-- C3, amended. For every store whose `nextID` is a 64-bit `int` below the largest one
(`2^63 - 1`) and every decoded body, POST /tasks answers 201 with the record whose id is the
old `nextID` (whatever id the body carried), whose title and description are the body's, and
whose status is "pending" when the body's status is empty and the body's status otherwise;
that record is appended at the end of the collection and `nextID` grows by one. -/
theorem create_contract (s : Store) (c : Task)
    (hlo : -(2 : Int) ^ 63 ≤ s.nextID) (hhi : s.nextID < 2 ^ 63 - 1) :
    ∃ stored : Task,
      stored.ID = s.nextID ∧ stored.Title = c.Title ∧ stored.Description = c.Description ∧
      stored.Status = (if c.Status = "" then "pending" else c.Status) ∧
      (serve64 s ⟨"POST", "/tasks", some c⟩).2 =
        { status := 201, contentType := some "application/json",
          body := Payload.jsonTask stored } ∧
      (serve64 s ⟨"POST", "/tasks", some c⟩).1.tasks.toList = s.tasks.toList ++ [stored] ∧
      (serve64 s ⟨"POST", "/tasks", some c⟩).1.nextID = s.nextID + 1 := by
  have h : serve64 s ⟨"POST", "/tasks", some c⟩ = createTask64 s ⟨"POST", "/tasks", some c⟩ := by
    simp [serve64, tasksRoute64]
  rw [h, createTask64_post]
  exact ⟨createdTask s.nextID c, rfl, rfl, rfl, rfl, rfl, rfl, incrInt64_eq s.nextID hlo hhi⟩

theorem create_contract_witness :
    -(2 : Int) ^ 63 ≤ (⟨TaskSlice.slice [⟨1, "a", "b", "done"⟩], 2⟩ : Store).nextID ∧
    (⟨TaskSlice.slice [⟨1, "a", "b", "done"⟩], 2⟩ : Store).nextID < 2 ^ 63 - 1 ∧
    ∃ stored : Task,
      stored.ID = 2 ∧ stored.Title = "Buy milk" ∧ stored.Description = "" ∧
      stored.Status = (if ("" : String) = "" then "pending" else "") ∧
      (serve64 ⟨TaskSlice.slice [⟨1, "a", "b", "done"⟩], 2⟩
        ⟨"POST", "/tasks", some ⟨7, "Buy milk", "", ""⟩⟩).2 =
        { status := 201, contentType := some "application/json",
          body := Payload.jsonTask stored } ∧
      (serve64 ⟨TaskSlice.slice [⟨1, "a", "b", "done"⟩], 2⟩
        ⟨"POST", "/tasks", some ⟨7, "Buy milk", "", ""⟩⟩).1.tasks.toList =
        [⟨1, "a", "b", "done"⟩] ++ [stored] ∧
      (serve64 ⟨TaskSlice.slice [⟨1, "a", "b", "done"⟩], 2⟩
        ⟨"POST", "/tasks", some ⟨7, "Buy milk", "", ""⟩⟩).1.nextID = 2 + 1 :=
  ⟨by decide, by decide,
    create_contract ⟨TaskSlice.slice [⟨1, "a", "b", "done"⟩], 2⟩ ⟨7, "Buy milk", "", ""⟩
      (by decide) (by decide)⟩

/-! ## Failed requests -/

/-- C9. A request answered with 400, 404 or 405 leaves the collection and `nextID` as they
were. -/
theorem error_leaves_store (s : Store) (r : Request)
    (h : (serve s r).2.status = 400 ∨ (serve s r).2.status = 404 ∨
      (serve s r).2.status = 405) :
    (serve s r).1 = s := by
  rcases serve_cases s r with ⟨hs, _⟩ | ⟨c, hc⟩ | ⟨id, p, i, t, _, hu⟩ | ⟨id, i, t, _, hd⟩
  · exact hs
  · rw [hc] at h; simp at h
  · rw [hu] at h; simp at h
  · rw [hd] at h; simp at h

theorem error_leaves_store_witness :
    (serve (run init [⟨"POST", "/tasks", some ⟨0, "a", "b", ""⟩⟩])
        ⟨"POST", "/tasks", none⟩).2.status = 400 ∧
      (serve (run init [⟨"POST", "/tasks", some ⟨0, "a", "b", ""⟩⟩])
        ⟨"POST", "/tasks", none⟩).1 = run init [⟨"POST", "/tasks", some ⟨0, "a", "b", ""⟩⟩] :=
  ⟨by decide, error_leaves_store _ _ (Or.inl (by decide))⟩

/-! ## Requests below `/tasks/` with an id that parses -/

theorem serve_get (s : Store) (sfx : String) (b : Option Task) (id : Int)
    (h : Atoi sfx = some id) :
    serve s ⟨"GET", "/tasks/" ++ sfx, b⟩ =
      match scan id s.tasks.toList with
      | some (_, task) =>
        (s, { status := 200, contentType := some "application/json",
              body := Payload.jsonTask task })
      | none => (s, httpError "Task Not Found" 404) := by
  rw [serve_item]
  simp [taskRoute, getTaskByID, trimPrefix_item_path, h]

theorem serve_put (s : Store) (sfx : String) (p : Task) (id : Int) (h : Atoi sfx = some id) :
    serve s ⟨"PUT", "/tasks/" ++ sfx, some p⟩ =
      match scan id s.tasks.toList with
      | some (i, task) =>
        ({ s with tasks := s.tasks.setAt i (applyPatch task p) },
          { status := 200, contentType := some "application/json",
            body := Payload.jsonTask (applyPatch task p) })
      | none => (s, httpError "Task Not Found" 404) := by
  rw [serve_item]
  simp [taskRoute, updateTask, trimPrefix_item_path, h]

theorem serve_delete (s : Store) (sfx : String) (b : Option Task) (id : Int)
    (h : Atoi sfx = some id) :
    serve s ⟨"DELETE", "/tasks/" ++ sfx, b⟩ =
      match scan id s.tasks.toList with
      | some (i, _) =>
        ({ s with tasks := s.tasks.removeAt i },
          { status := 204, contentType := none, body := Payload.empty })
      | none => (s, httpError "Task Not Found" 404) := by
  rw [serve_item]
  simp [taskRoute, deleteTask, trimPrefix_item_path, h]

theorem scan_find (id : Int) (l : List Task) :
    (scan id l).map Prod.snd = l.find? (fun u => decide (u.ID = id)) := by
  induction l with
  | nil => rfl
  | cons a l ih =>
    by_cases h : a.ID = id
    · simp [scan, h]
    · simp only [scan, h, if_false, List.find?_cons, decide_False, ← ih, Option.map_map]
      rfl

/-! ## Read one task -/

/-- C6. For every store and every id that the path suffix parses to, GET /tasks/{id} leaves the
store unchanged, answers 404 exactly when no stored task has that id, and otherwise answers 200
with the first stored task carrying that id. In a state reached from the initial one, an id
below 1 or not below `nextID` gives 404. -/
theorem get_contract (s : Store) (sfx : String) (id : Int) (b : Option Task)
    (h : Atoi sfx = some id) :
    (serve s ⟨"GET", "/tasks/" ++ sfx, b⟩).1 = s ∧
    ((serve s ⟨"GET", "/tasks/" ++ sfx, b⟩).2.status = 404 ↔ ∀ t ∈ s.tasks.toList, t.ID ≠ id) ∧
    ((∃ t ∈ s.tasks.toList, t.ID = id) →
      ∃ t, s.tasks.toList.find? (fun u => decide (u.ID = id)) = some t ∧
        (serve s ⟨"GET", "/tasks/" ++ sfx, b⟩).2 =
          { status := 200, contentType := some "application/json",
            body := Payload.jsonTask t }) ∧
    (∀ rs, s = run init rs → id < 1 ∨ s.nextID ≤ id →
      (serve s ⟨"GET", "/tasks/" ++ sfx, b⟩).2 = httpError "Task Not Found" 404) := by
  rw [serve_get s sfx b id h]
  have hfind := scan_find id s.tasks.toList
  cases hs : scan id s.tasks.toList with
  | none =>
    have hno := (scan_none_iff id _).mp hs
    refine ⟨rfl, ?_, ?_, ?_⟩
    · simp only [httpError, true_iff]
      exact hno
    · rintro ⟨t, ht, hid⟩
      exact absurd hid (hno t ht)
    · intro _ _ _
      rfl
  | some q =>
    obtain ⟨k, t⟩ := q
    obtain ⟨pre, post, hl, _, hid, _⟩ := scan_some_split id _ k t hs
    have hmem : t ∈ s.tasks.toList := by rw [hl]; simp
    rw [hs] at hfind
    refine ⟨rfl, ?_, ?_, ?_⟩
    · simp only [show (200 : Nat) = 404 ↔ False by decide, false_iff]
      intro hall
      exact hall t hmem hid
    · intro _
      exact ⟨t, hfind.symm, rfl⟩
    · intro rs hrs hout
      exfalso
      obtain ⟨_, _, hrange⟩ := inv_run init rs inv_init
      rw [← hrs] at hrange
      have := hrange t.ID (List.mem_map_of_mem _ hmem)
      omega

theorem get_contract_witness :
    Atoi "1" = some 1 ∧
      (serve (run init [⟨"POST", "/tasks", some ⟨0, "a", "b", ""⟩⟩])
        ⟨"GET", "/tasks/" ++ "1", none⟩).1 = run init [⟨"POST", "/tasks", some ⟨0, "a", "b", ""⟩⟩] :=
  ⟨by decide, (get_contract _ "1" 1 none (by decide)).1⟩

/-! ## Update -/

/-- C4. For every store holding a task with id `i` and every decoded patch, PUT /tasks/i answers
200 with the merged record: title, description and status are the patch's where the patch's
value is non-empty and the stored ones otherwise, and the id stays `i` whatever id the patch
carries. The first stored task with id `i` is replaced by the merged record; the tasks before
and after it, the length and order of the collection and `nextID` stay as they were. -/
theorem update_contract (s : Store) (sfx : String) (i : Int) (p : Task)
    (hi : Atoi sfx = some i) (hmem : ∃ t ∈ s.tasks.toList, t.ID = i) :
    ∃ (pre post : List Task) (old merged : Task),
      s.tasks.toList = pre ++ old :: post ∧ (∀ u ∈ pre, u.ID ≠ i) ∧ old.ID = i ∧
      merged.ID = i ∧
      merged.Title = (if p.Title ≠ "" then p.Title else old.Title) ∧
      merged.Description = (if p.Description ≠ "" then p.Description else old.Description) ∧
      merged.Status = (if p.Status ≠ "" then p.Status else old.Status) ∧
      (serve s ⟨"PUT", "/tasks/" ++ sfx, some p⟩).2 =
        { status := 200, contentType := some "application/json",
          body := Payload.jsonTask merged } ∧
      (serve s ⟨"PUT", "/tasks/" ++ sfx, some p⟩).1.tasks.toList = pre ++ merged :: post ∧
      (serve s ⟨"PUT", "/tasks/" ++ sfx, some p⟩).1.nextID = s.nextID := by
  obtain ⟨k, t, hs⟩ := scan_of_mem i _ hmem
  obtain ⟨pre, post, hl, hlen, hid, hpre⟩ := scan_some_split i _ k t hs
  rw [serve_put s sfx p i hi, hs]
  refine ⟨pre, post, t, applyPatch t p, hl, hpre, hid, ?_, ?_, ?_, ?_, rfl, ?_, rfl⟩
  · rw [applyPatch_ID, hid]
  · rw [applyPatch_fields]
  · rw [applyPatch_fields]
  · rw [applyPatch_fields]
  · simp only [toList_setAt]
    rw [hl, ← hlen, set_at_split]

theorem update_contract_witness :
    Atoi "1" = some 1 ∧
      ∃ (pre post : List Task) (old merged : Task),
        (TaskSlice.slice [⟨1, "a", "b", "pending"⟩, ⟨2, "c", "", "pending"⟩]).toList
          = pre ++ old :: post ∧ (∀ u ∈ pre, u.ID ≠ 1) ∧ old.ID = 1 ∧
        merged.ID = 1 ∧
        merged.Title = (if ("" : String) ≠ "" then "" else old.Title) ∧
        merged.Description = (if ("" : String) ≠ "" then "" else old.Description) ∧
        merged.Status = (if "completed" ≠ "" then "completed" else old.Status) ∧
        (serve ⟨TaskSlice.slice [⟨1, "a", "b", "pending"⟩, ⟨2, "c", "", "pending"⟩], 3⟩
          ⟨"PUT", "/tasks/" ++ "1", some ⟨9, "", "", "completed"⟩⟩).2 =
          { status := 200, contentType := some "application/json",
            body := Payload.jsonTask merged } ∧
        (serve ⟨TaskSlice.slice [⟨1, "a", "b", "pending"⟩, ⟨2, "c", "", "pending"⟩], 3⟩
          ⟨"PUT", "/tasks/" ++ "1", some ⟨9, "", "", "completed"⟩⟩).1.tasks.toList
          = pre ++ merged :: post ∧
        (serve ⟨TaskSlice.slice [⟨1, "a", "b", "pending"⟩, ⟨2, "c", "", "pending"⟩], 3⟩
          ⟨"PUT", "/tasks/" ++ "1", some ⟨9, "", "", "completed"⟩⟩).1.nextID = 3 :=
  ⟨by decide,
    update_contract ⟨TaskSlice.slice [⟨1, "a", "b", "pending"⟩, ⟨2, "c", "", "pending"⟩], 3⟩
      "1" 1 ⟨9, "", "", "completed"⟩ (by decide) ⟨⟨1, "a", "b", "pending"⟩, by decide, rfl⟩⟩

/-! ## Delete -/

theorem filter_split_sorted (pre post : List Task) (t : Task)
    (hpre : ∀ u ∈ pre, u.ID ≠ t.ID) (hpost : ∀ u ∈ post, u.ID ≠ t.ID) :
    (pre ++ t :: post).filter (fun u => decide (u.ID ≠ t.ID)) = pre ++ post := by
  rw [List.filter_append, List.filter_cons]
  simp only [ne_eq, not_true_eq_false, decide_False, Bool.false_eq_true, if_false]
  rw [List.filter_eq_self.mpr (fun u hu => by simpa using hpre u hu),
    List.filter_eq_self.mpr (fun u hu => by simpa using hpost u hu)]

/-- C5. In every state reached from the initial one that holds a task with id `i`,
DELETE /tasks/i answers 204 with an empty body, the collection becomes the old one without the
tasks of id `i` (the others stay, in the same order), `nextID` is unchanged, and a GET /tasks/i
served right after answers 404. -/
theorem delete_contract (rs : List Request) (sfx sfx2 : String) (i : Int) (b b2 : Option Task)
    (hi : Atoi sfx = some i) (hi2 : Atoi sfx2 = some i)
    (hmem : ∃ t ∈ (run init rs).tasks.toList, t.ID = i) :
    (serve (run init rs) ⟨"DELETE", "/tasks/" ++ sfx, b⟩).2 =
      { status := 204, contentType := none, body := Payload.empty } ∧
    (serve (run init rs) ⟨"DELETE", "/tasks/" ++ sfx, b⟩).1.tasks.toList =
      (run init rs).tasks.toList.filter (fun t => decide (t.ID ≠ i)) ∧
    (serve (run init rs) ⟨"DELETE", "/tasks/" ++ sfx, b⟩).1.nextID = (run init rs).nextID ∧
    (serve (serve (run init rs) ⟨"DELETE", "/tasks/" ++ sfx, b⟩).1
      ⟨"GET", "/tasks/" ++ sfx2, b2⟩).2 = httpError "Task Not Found" 404 := by
  obtain ⟨hsorted, _, _⟩ := inv_run init rs inv_init
  generalize run init rs = s at hsorted hmem ⊢
  obtain ⟨k, t, hs⟩ := scan_of_mem i _ hmem
  obtain ⟨pre, post, hl, hlen, hid, hpre⟩ := scan_some_split i _ k t hs
  have hpost : ∀ u ∈ post, u.ID ≠ i := by
    intro u hu
    simp only [ids, hl, List.map_append, List.map_cons, List.pairwise_append,
      List.pairwise_cons] at hsorted
    have := hsorted.2.1.1 u.ID (List.mem_map_of_mem _ hu)
    omega
  have hafter : (s.tasks.removeAt k).toList = pre ++ post := by
    rw [toList_removeAt, hl, ← hlen, remove_at_split]
  rw [serve_delete s sfx b i hi, hs]
  refine ⟨rfl, ?_, rfl, ?_⟩
  · simp only [hafter]
    rw [hl, ← hid]
    exact (filter_split_sorted pre post t (by rw [hid]; exact hpre) (by rw [hid]; exact hpost)).symm
  · rw [serve_get _ sfx2 b2 i hi2]
    simp only [hafter]
    have hnone : scan i (pre ++ post) = none := by
      rw [scan_none_iff]
      intro u hu
      rcases List.mem_append.mp hu with hu | hu
      · exact hpre u hu
      · exact hpost u hu
    rw [hnone]

theorem delete_contract_witness :
    Atoi "1" = some 1 ∧ Atoi "+1" = some 1 ∧
      (∃ t ∈ (run init [⟨"POST", "/tasks", some ⟨0, "a", "b", ""⟩⟩]).tasks.toList, t.ID = 1) ∧
      (serve (serve (run init [⟨"POST", "/tasks", some ⟨0, "a", "b", ""⟩⟩])
          ⟨"DELETE", "/tasks/" ++ "1", none⟩).1
        ⟨"GET", "/tasks/" ++ "+1", none⟩).2 = httpError "Task Not Found" 404 :=
  ⟨by decide, by decide, ⟨⟨1, "a", "b", "pending"⟩, by decide, rfl⟩,
    (delete_contract [⟨"POST", "/tasks", some ⟨0, "a", "b", ""⟩⟩] "1" "+1" 1 none none
      (by decide) (by decide) ⟨⟨1, "a", "b", "pending"⟩, by decide, rfl⟩).2.2.2⟩

/-! ## Ids that do not parse -/

theorem serve_invalid_id (s : Store) (m sfx : String) (b : Option Task)
    (hm : m = "GET" ∨ m = "PUT" ∨ m = "DELETE") (h : Atoi sfx = none) :
    serve s ⟨m, "/tasks/" ++ sfx, b⟩ = (s, httpError "Invalid Task ID" 400) := by
  rw [serve_item]
  rcases hm with rfl | rfl | rfl
  · simp [taskRoute, getTaskByID, trimPrefix_item_path, h]
  · simp [taskRoute, updateTask, trimPrefix_item_path, h]
  · simp [taskRoute, deleteTask, trimPrefix_item_path, h]

theorem serve_item_other_method (s : Store) (m sfx : String) (b : Option Task)
    (hm : ¬(m = "GET" ∨ m = "PUT" ∨ m = "DELETE")) :
    serve s ⟨m, "/tasks/" ++ sfx, b⟩ = (s, httpError "Method Not Allowed" 405) := by
  rw [serve_item]
  simp only [not_or] at hm
  simp [taskRoute, hm.1, hm.2.1, hm.2.2]

/-- A request whose path `cleanPath` leaves alone is dispatched; any other is either dispatched
(CONNECT) or redirected with the store untouched. -/
theorem ServeHTTP_of_clean (s : Store) (r : Request) (h : cleanPath r.Path = r.Path) :
    ServeHTTP s r = serve s r := by
  unfold ServeHTTP
  rw [if_neg]
  simp [h]

theorem ServeHTTP_cases (s : Store) (r : Request) :
    ServeHTTP s r = serve s r ∨
      ((ServeHTTP s r).1 = s ∧ (ServeHTTP s r).2.status = 307) := by
  unfold ServeHTTP
  split_ifs
  · right; exact ⟨rfl, rfl⟩
  · left; rfl

/-! ### A suffix that parses is a path the mux dispatches -/

theorem digitVal_some_ne (c : Char) (h : (digitVal c).isSome = true) : c ≠ '/' ∧ c ≠ '.' := by
  constructor <;> rintro rfl <;> revert h <;> decide

theorem parseDigits_some_all (cs : List Char) (acc n : Nat) (h : parseDigits cs acc = some n) :
    ∀ c ∈ cs, c ≠ '/' ∧ c ≠ '.' := by
  induction cs generalizing acc with
  | nil => simp
  | cons d ds ih =>
    cases hd : digitVal d with
    | none => simp [parseDigits, hd] at h
    | some v =>
      simp only [parseDigits, hd] at h
      intro c hc
      rcases List.mem_cons.mp hc with rfl | hc
      · exact digitVal_some_ne c (by rw [hd]; rfl)
      · exact ih _ h c hc

theorem Atoi_shape (sfx : String) (id : Int) (h : Atoi sfx = some id) :
    (∀ c ∈ sfx.data, c ≠ '/') ∧ ∃ c ∈ sfx.data, c ≠ '.' := by
  unfold Atoi at h
  split at h
  · exact absurd h (by simp only [reduceCtorEq, not_false_eq_true])
  · rename_i s0 rest heq
    simp only [] at h
    rw [heq]
    by_cases hsign : s0 = '-' ∨ s0 = '+'
    · rw [if_pos hsign] at h
      cases rest with
      | nil => simp only [List.isEmpty_nil, ↓reduceIte, reduceCtorEq] at h
      | cons d ds =>
        rw [if_neg (by simp)] at h
        cases hp : parseDigits (d :: ds) 0 with
        | none => simp only [hp, reduceCtorEq] at h
        | some n =>
          have hall := parseDigits_some_all (d :: ds) 0 n hp
          have hs0 : s0 ≠ '/' := by
            rcases hsign with rfl | rfl <;> decide
          refine ⟨?_, d, by simp, (hall d (List.mem_cons_self _ _)).2⟩
          intro c hc
          rcases List.mem_cons.mp hc with rfl | hc
          · exact hs0
          · exact (hall c hc).1
    · rw [if_neg hsign, if_neg (by simp)] at h
      cases hp : parseDigits (s0 :: rest) 0 with
      | none => simp only [hp, reduceCtorEq] at h
      | some n =>
        have hall := parseDigits_some_all (s0 :: rest) 0 n hp
        exact ⟨fun c hc => (hall c hc).1, s0, List.mem_cons_self _ _,
          (hall s0 (List.mem_cons_self _ _)).2⟩

theorem pathElements_plain (cs : List Char) (h : ∀ c ∈ cs, c ≠ '/') :
    pathElements cs = [cs] := by
  induction cs with
  | nil => rfl
  | cons c cs ih =>
    have hc : c ≠ '/' := h c (List.mem_cons_self _ _)
    have ih2 := ih (fun d hd => h d (List.mem_cons_of_mem _ hd))
    simp [pathElements, hc, ih2]

theorem cleanPath_item (sfx : String) (hplain : ∀ c ∈ sfx.data, c ≠ '/')
    (hdot : ∃ c ∈ sfx.data, c ≠ '.') :
    cleanPath ("/tasks/" ++ sfx) = "/tasks/" ++ sfx := by
  obtain ⟨c, hc, hcdot⟩ := hdot
  have hne : sfx.data ≠ [] := List.ne_nil_of_mem hc
  have h1 : sfx.data ≠ ['.'] := by
    intro e; rw [e] at hc; simp at hc; exact hcdot hc
  have h2 : sfx.data ≠ ['.', '.'] := by
    intro e; rw [e] at hc; simp at hc; exact hcdot hc
  have hdata : ("/tasks/" ++ sfx).data = '/' :: 't' :: 'a' :: 's' :: 'k' :: 's' :: '/' :: sfx.data := by
    rw [String.data_append]; rfl
  have hel : pathElements ('/' :: 't' :: 'a' :: 's' :: 'k' :: 's' :: '/' :: sfx.data) =
      [[], ['t', 'a', 's', 'k', 's'], sfx.data] := by
    simp [pathElements, pathElements_plain _ hplain]
  have hclean : cleanRooted ('/' :: 't' :: 'a' :: 's' :: 'k' :: 's' :: '/' :: sfx.data) =
      '/' :: 't' :: 'a' :: 's' :: 'k' :: 's' :: '/' :: sfx.data := by
    unfold cleanRooted
    rw [hel]
    simp [cleanStep, hne, h1, h2, List.intercalate, List.intersperse]
  have hlast : ('/' :: 't' :: 'a' :: 's' :: 'k' :: 's' :: '/' :: sfx.data).getLast? ≠ some '/' := by
    intro hl
    have : ('/' :: 't' :: 'a' :: 's' :: 'k' :: 's' :: '/' :: sfx.data).getLast? =
        sfx.data.getLast? := by
      have := List.getLast?_append_of_ne_nil ['/', 't', 'a', 's', 'k', 's', '/'] hne
      simpa using this
    rw [this] at hl
    exact hplain '/' (List.mem_of_getLast?_eq_some hl) rfl
  unfold cleanPath
  rw [hdata]
  simp only [List.head?_cons, ne_eq, not_true_eq_false, if_false, hclean]
  rw [if_neg (by simp), if_neg (fun hh => hlast hh.1), ← hdata]

/-- A request below `/tasks/` whose suffix parses is dispatched by the mux as it stands. -/
theorem ServeHTTP_item_of_Atoi (s : Store) (m sfx : String) (b : Option Task) (id : Int)
    (h : Atoi sfx = some id) :
    ServeHTTP s ⟨m, "/tasks/" ++ sfx, b⟩ = serve s ⟨m, "/tasks/" ++ sfx, b⟩ :=
  ServeHTTP_of_clean s _ (cleanPath_item sfx (Atoi_shape sfx id h).1 (Atoi_shape sfx id h).2)

/-- A request to `/tasks` is dispatched by the mux as it stands. -/
theorem ServeHTTP_tasks (s : Store) (m : String) (b : Option Task) :
    ServeHTTP s ⟨m, "/tasks", b⟩ = serve s ⟨m, "/tasks", b⟩ :=
  ServeHTTP_of_clean s _ (show cleanPath "/tasks" = "/tasks" by decide)

/-- C7, as stated, fails in two ways: a POST to a path below `/tasks/` whose suffix does not
parse is answered 405, because the method is looked at before the path; and a GET whose suffix
is `/1` never reaches a handler, because the mux redirects the path `/tasks//1` to `/tasks/1`. -/
theorem invalid_id_any_method_counterexample :
    Atoi "abc" = none ∧
      ServeHTTP init ⟨"POST", "/tasks/" ++ "abc", none⟩ =
        (init, httpError "Method Not Allowed" 405) ∧
      (ServeHTTP init ⟨"POST", "/tasks/" ++ "abc", none⟩).2 ≠ httpError "Invalid Task ID" 400 ∧
    Atoi "/1" = none ∧
      ServeHTTP init ⟨"GET", "/tasks/" ++ "/1", none⟩ =
        (init, { status := 307, contentType := some "text/html; charset=utf-8",
                 body := Payload.redirect "/tasks/1" }) ∧
      (ServeHTTP init ⟨"GET", "/tasks/" ++ "/1", none⟩).2 ≠ httpError "Invalid Task ID" 400 := by
  decide

/-- C7, amended. For a request whose path is `/tasks/` followed by a suffix that does not parse
as an integer, and is a path that the mux's `cleanPath` leaves unchanged (so the request is
dispatched, not redirected): when the method is GET, PUT or DELETE the response is 400 with the
message "Invalid Task ID", whatever the body; for any other method it is 405 with the message
"Method Not Allowed". The store is left as it was. -/
theorem invalid_id_bad_request (s : Store) (m sfx : String) (b : Option Task)
    (hc : cleanPath ("/tasks/" ++ sfx) = "/tasks/" ++ sfx) (h : Atoi sfx = none) :
    ServeHTTP s ⟨m, "/tasks/" ++ sfx, b⟩ =
      if m = "GET" ∨ m = "PUT" ∨ m = "DELETE" then (s, httpError "Invalid Task ID" 400)
      else (s, httpError "Method Not Allowed" 405) := by
  rw [ServeHTTP_of_clean s _ hc]
  split_ifs with hm
  · exact serve_invalid_id s m sfx b hm h
  · exact serve_item_other_method s m sfx b hm

theorem invalid_id_bad_request_witness :
    cleanPath ("/tasks/" ++ "abc") = "/tasks/" ++ "abc" ∧ Atoi "abc" = none ∧
      ServeHTTP (run init [⟨"POST", "/tasks", some ⟨0, "a", "b", ""⟩⟩])
          ⟨"PUT", "/tasks/" ++ "abc", none⟩ =
        if "PUT" = "GET" ∨ "PUT" = "PUT" ∨ "PUT" = "DELETE" then
          (run init [⟨"POST", "/tasks", some ⟨0, "a", "b", ""⟩⟩],
            httpError "Invalid Task ID" 400)
        else
          (run init [⟨"POST", "/tasks", some ⟨0, "a", "b", ""⟩⟩],
            httpError "Method Not Allowed" 405) :=
  ⟨by decide, by decide,
    invalid_id_bad_request (run init [⟨"POST", "/tasks", some ⟨0, "a", "b", ""⟩⟩]) "PUT" "abc"
      none (by decide) (by decide)⟩

/-! ## List all -/

theorem getTasks_allocated (elems : List Task) (n : Int) (b : Option Task) :
    serve ⟨TaskSlice.slice elems, n⟩ ⟨"GET", "/tasks", b⟩ =
      (⟨TaskSlice.slice elems, n⟩,
        { status := 200, contentType := some "application/json",
          body := Payload.jsonArray elems }) := by
  simp [serve, tasksRoute, getTasks, encodeTasks]

/-- C8, at the failing input. In the initial state GET /tasks answers 200 with the JSON value
`null`, not with an empty array; once a task has been created and deleted again, the same
request on the again empty collection is answered with the empty array. -/
theorem list_initial_is_null :
    serve init ⟨"GET", "/tasks", none⟩ =
      (init, { status := 200, contentType := some "application/json",
               body := Payload.jsonNull }) ∧
    (serve (run init [⟨"POST", "/tasks", some ⟨0, "a", "", ""⟩⟩, ⟨"DELETE", "/tasks/1", none⟩])
        ⟨"GET", "/tasks", none⟩).2 =
      { status := 200, contentType := some "application/json", body := Payload.jsonArray [] } := by
  decide

/-! ## PUT twice -/

theorem scan_set_same (id : Int) (l : List Task) (k : Nat) (t u : Task)
    (hs : scan id l = some (k, t)) (hu : u.ID = id) :
    scan id (l.set k u) = some (k, u) := by
  obtain ⟨pre, post, hl, hlen, _, hpre⟩ := scan_some_split id l k t hs
  subst hlen
  rw [hl, set_at_split]
  exact scan_split id pre post u hpre hu

theorem setAt_setAt (ts : TaskSlice) (k : Nat) (u : Task) :
    (ts.setAt k u).setAt k u = ts.setAt k u := by
  cases ts with
  | nil => rfl
  | slice elems => simp [TaskSlice.setAt, List.set_set]

theorem updateTask_twice (s : Store) (path : String) (p : Task) :
    updateTask (updateTask s ⟨"PUT", path, some p⟩).1 ⟨"PUT", path, some p⟩ =
      updateTask s ⟨"PUT", path, some p⟩ := by
  unfold updateTask
  simp only [ne_eq, not_true_eq_false, if_false]
  cases Atoi (TrimPrefix path "/tasks/") with
  | none => rfl
  | some id =>
    simp only []
    cases hs : scan id s.tasks.toList with
    | none => simp only [hs]
    | some q =>
      obtain ⟨k, t⟩ := q
      have hid : t.ID = id := by
        obtain ⟨_, _, _, _, h, _⟩ := scan_some_split id _ k t hs
        exact h
      have h2 := scan_set_same id _ k t (applyPatch t p) hs (by rw [applyPatch_ID, hid])
      simp only [toList_setAt, h2, applyPatch_idem, setAt_setAt]

/-- C10. For every store, every path and every decoded patch, serving the same PUT a second
time right after the first gives the same store and the same response as the first. -/
theorem put_idempotent (s : Store) (path : String) (p : Task) :
    serve (serve s ⟨"PUT", path, some p⟩).1 ⟨"PUT", path, some p⟩ =
      serve s ⟨"PUT", path, some p⟩ := by
  unfold serve
  simp only []
  split_ifs with h1 h2
  · have ht : ∀ s' : Store, tasksRoute s' ⟨"PUT", path, some p⟩ =
        (s', httpError "Method Not Allowed" 405) := by
      intro s'
      simp [tasksRoute, h1]
    rw [ht, ht]
  · have ht : ∀ s' : Store, taskRoute s' ⟨"PUT", path, some p⟩ =
        updateTask s' ⟨"PUT", path, some p⟩ := by
      intro s'
      simp [taskRoute]
    rw [ht, ht]
    exact updateTask_twice s path p
  · rfl

/-! ## The example scenario of the specification -/

theorem example_scenario :
    responses init
      [⟨"POST", "/tasks", some ⟨0, "Buy milk", "", ""⟩⟩,
       ⟨"PUT", "/tasks/1", some ⟨0, "", "", "completed"⟩⟩,
       ⟨"DELETE", "/tasks/1", none⟩,
       ⟨"GET", "/tasks/1", none⟩,
       ⟨"GET", "/tasks/abc", none⟩,
       ⟨"POST", "/tasks", none⟩] =
      [⟨201, some "application/json", Payload.jsonTask ⟨1, "Buy milk", "", "pending"⟩⟩,
       ⟨200, some "application/json", Payload.jsonTask ⟨1, "Buy milk", "", "completed"⟩⟩,
       ⟨204, none, Payload.empty⟩,
       httpError "Task Not Found" 404,
       httpError "Invalid Task ID" 400,
       httpError "Bad Request" 400] := by
  decide

theorem Atoi_examples :
    Atoi "123" = some 123 ∧ Atoi "-9223372036854775808" = some (-9223372036854775808) ∧
      Atoi "9223372036854775807" = some 9223372036854775807 ∧
      Atoi "9223372036854775808" = none ∧ Atoi "+7" = some 7 ∧ Atoi "007" = some 7 ∧
      Atoi "" = none ∧ Atoi "+" = none ∧ Atoi "1_000" = none ∧ Atoi "1/2" = none ∧
      Atoi " 1" = none := by
  decide

theorem cleanPath_examples :
    cleanPath "/tasks/abc" = "/tasks/abc" ∧ cleanPath "/tasks//1" = "/tasks/1" ∧
      cleanPath "/tasks/." = "/tasks" ∧ cleanPath "/tasks/.." = "/" ∧
      cleanPath "/tasks/" = "/tasks/" ∧ cleanPath "/tasks/a/" = "/tasks/a/" ∧
      cleanPath "/" = "/" ∧ cleanPath "/tasks/../../x" = "/x" ∧ cleanPath "/tasks" = "/tasks" ∧
      cleanPath "" = "/" ∧ cleanPath "/tasks/a/../1" = "/tasks/1" ∧
      cleanPath "/tasks/./" = "/tasks/" ∧ cleanPath "//" = "/" ∧
      cleanPath "/tasks/..." = "/tasks/..." ∧ cleanPath "tasks" = "/tasks" := by
  decide

theorem incrInt64_examples :
    incrInt64 1 = 2 ∧ incrInt64 (2 ^ 63 - 1) = -2 ^ 63 ∧ incrInt64 (-1) = 0 ∧
      incrInt64 (-2 ^ 63) = -2 ^ 63 + 1 := by
  decide

end TaskApi
